import Mathlib

/-!
# Verification of the deepseek CLI conversation store and streaming logic

A shallow embedding of the Go program (`main.go` and its richer variant in
the repository) into Lean: the persisted conversation store and its JSON
codec, the server-sent-event stream reassembler, the session append logic,
the `removeChats` deletion operation, and the control flow of `main` for a
prompt-submitting invocation.

Machine integers do not occur in the program's core logic; timestamps are
modelled as integers (nanoseconds since the epoch), abstracting Go's
`time.Time` and its RFC3339 textual form (an injective encoding both ways).
External library calls (`encoding/json` text parsing, `time.ParseDuration`,
the HTTP transport) are modelled at the boundary: JSON is modelled as a
tree (`Json`), and `time.ParseDuration` / `json.Unmarshal` for stream
events are parameters of the functions that call them.
-/

namespace Deepseek

/-- One turn in a conversation.  Embeds the Go struct `Message`
(`main.go`): fields `Role` and `Content`, both strings. -/
structure Message where
  role : String
  content : String
deriving DecidableEq, Repr

/-- One conversation.  Embeds the Go struct `Chat` (`main.go`): a creation
timestamp (`time.Time`, modelled as an integer) and an ordered message
list. -/
structure Chat where
  createdAt : Int
  messages : List Message
deriving DecidableEq, Repr

/-- The persisted configuration.  Embeds the Go struct `Config`
(`main.go`): the last used chat id and the history map.  The Go map
`map[string]Chat` is modelled as an association list; Go map equality
(`reflect.DeepEqual`) is extensional equality of lookups. -/
structure Config where
  lastChatID : String
  history : List (String × Chat)
deriving DecidableEq, Repr

/-- The process-wide mutable state: the globals `chatHistory` and
`lastChatID` of `main.go`. -/
structure StoreState where
  chatHistory : List (String × Chat)
  lastChatID : String
deriving DecidableEq, Repr

/-- First-match lookup in the association list modelling the Go map. -/
def lookupChat : List (String × Chat) → String → Option Chat
  | [], _ => none
  | (k, v) :: rest, id => if k = id then some v else lookupChat rest id

/-- Go map assignment `chatHistory[id] = c`: replace the binding if the key
is present, otherwise add it. -/
def insertChat : List (String × Chat) → String → Chat → List (String × Chat)
  | [], id, c => [(id, c)]
  | (k, v) :: rest, id, c =>
      if k = id then (id, c) :: rest else (k, v) :: insertChat rest id c

/-- Go `delete(chatHistory, id)`: remove every binding of the key. -/
def eraseChat (h : List (String × Chat)) (id : String) : List (String × Chat) :=
  h.filter (fun p => p.1 ≠ id)

/-- A JSON document, modelling the tree produced/consumed by Go's
`encoding/json`.  Numbers are integers: the only numeric payload in this
program is the modelled timestamp. -/
inductive Json where
  | null : Json
  | bool : Bool → Json
  | num : Int → Json
  | str : String → Json
  | arr : List Json → Json
  | obj : List (String × Json) → Json

/-- Lookup of an object field, first match (the encoder emits each key
once, so this agrees with Go's duplicate-key handling on every document the
program writes). -/
def jsonField : List (String × Json) → String → Option Json
  | [], _ => none
  | (k, v) :: rest, key => if k = key then some v else jsonField rest key

/-- `json.Marshal` of a `Message` value. -/
def encodeMessage (m : Message) : Json :=
  .obj [("role", .str m.role), ("content", .str m.content)]

/-- `json.Marshal` of a `Chat` value: the `created_at` timestamp (modelled
as a JSON number, abstracting the RFC3339 string) and the message array. -/
def encodeChat (c : Chat) : Json :=
  .obj [("created_at", .num c.createdAt),
        ("messages", .arr (c.messages.map encodeMessage))]

/-- `json.Marshal` of the `Config` struct written by `saveHistory`. -/
def encodeConfig (cfg : Config) : Json :=
  .obj [("last_chat_id", .str cfg.lastChatID),
        ("history", .obj (cfg.history.map (fun p => (p.1, encodeChat p.2))))]

/-- Go `json.Unmarshal` of a string-typed struct field: a missing field or
JSON `null` leaves the zero value `""`; a present field of another type is
a type error. -/
def decodeStrField (fs : List (String × Json)) (key : String) : Option String :=
  match jsonField fs key with
  | none => some ""
  | some (.str s) => some s
  | some .null => some ""
  | some _ => none

/-- `json.Unmarshal` into a `Message`: only an object (or `null`) is
accepted; absent fields get zero values. -/
def decodeMessage : Json → Option Message
  | .obj fs => do
      let r ← decodeStrField fs "role"
      let c ← decodeStrField fs "content"
      pure ⟨r, c⟩
  | .null => some ⟨"", ""⟩
  | _ => none

/-- Element-wise decoding of a JSON array, failing if any element fails. -/
def decodeMessageList : List Json → Option (List Message)
  | [] => some []
  | x :: xs => do
      let m ← decodeMessage x
      let rest ← decodeMessageList xs
      pure (m :: rest)

/-- `json.Unmarshal` into the `Messages` slice: `null` (and, at the struct
level, a missing field) gives the nil slice, modelled as `[]`. -/
def decodeMessages : Json → Option (List Message)
  | .arr xs => decodeMessageList xs
  | .null => some []
  | _ => none

/-- `json.Unmarshal` into a `Chat`. -/
def decodeChat : Json → Option Chat
  | .obj fs => do
      let t ← (match jsonField fs "created_at" with
        | none => some (0 : Int)
        | some (.num n) => some n
        | some .null => some (0 : Int)
        | some _ => none)
      let ms ← (match jsonField fs "messages" with
        | none => some []
        | some v => decodeMessages v)
      pure ⟨t, ms⟩
  | .null => some ⟨0, []⟩
  | _ => none

/-- Element-wise decoding of the history object's fields. -/
def decodeHistoryFields : List (String × Json) → Option (List (String × Chat))
  | [] => some []
  | (k, v) :: rest => do
      let c ← decodeChat v
      let tail ← decodeHistoryFields rest
      pure ((k, c) :: tail)

/-- `json.Unmarshal` into the `History` map. -/
def decodeHistory : Json → Option (List (String × Chat))
  | .obj fs => decodeHistoryFields fs
  | .null => some []
  | _ => none

/-- `json.Unmarshal` into the `Config` struct read by `loadHistory`.  A
missing or `null` `history` field leaves the nil map, which `loadHistory`
replaces with an empty one. -/
def decodeConfig : Json → Option Config
  | .obj fs => do
      let lid ← decodeStrField fs "last_chat_id"
      let h ← (match jsonField fs "history" with
        | none => some []
        | some v => decodeHistory v)
      pure ⟨lid, h⟩
  | .null => some ⟨"", []⟩
  | _ => none

/-- The outcome of `os.ReadFile` plus JSON text parsing on the history
file: the file is missing, present but not parseable as JSON text, or
parses to a JSON document. -/
inductive FileContent where
  | missing : FileContent
  | invalid : FileContent
  | valid : Json → FileContent

/-- Embeds `loadHistory` (`main.go` lines 90–115): a missing file returns
leaving the state as it is; an unparseable file (or a document of the
wrong shape) prints a diagnostic and returns; otherwise the globals are
replaced by the decoded configuration, with a nil history map replaced by
an empty one (folded into `decodeConfig`). -/
def loadHistory (file : FileContent) (st : StoreState) : StoreState :=
  match file with
  | .missing => st
  | .invalid => st
  | .valid j =>
      match decodeConfig j with
      | none => st
      | some cfg => ⟨cfg.history, cfg.lastChatID⟩

/-- Embeds `saveHistory` (`main.go` lines 117–135): the JSON document
written to the history file (`MarshalIndent` whitespace is immaterial at
tree level; marshalling a `Config` value cannot fail). -/
def saveHistoryJson (st : StoreState) : Json :=
  encodeConfig ⟨st.lastChatID, st.chatHistory⟩

theorem decodeMessage_encodeMessage (m : Message) :
    decodeMessage (encodeMessage m) = some m := by
  cases m with
  | mk r c =>
      simp [decodeMessage, encodeMessage, decodeStrField, jsonField]

theorem decodeMessages_map (ms : List Message) :
    decodeMessages (.arr (ms.map encodeMessage)) = some ms := by
  induction ms with
  | nil => rfl
  | cons m rest ih =>
      simp only [decodeMessages, List.map_cons, decodeMessageList,
        decodeMessage_encodeMessage] at *
      simp [ih]

theorem decodeChat_encodeChat (c : Chat) :
    decodeChat (encodeChat c) = some c := by
  cases c with
  | mk t ms =>
      simp [decodeChat, encodeChat, jsonField, decodeMessages_map]

theorem decodeHistory_map (h : List (String × Chat)) :
    decodeHistory (.obj (h.map (fun p => (p.1, encodeChat p.2)))) = some h := by
  induction h with
  | nil => rfl
  | cons p rest ih =>
      simp only [decodeHistory, List.map_cons, decodeHistoryFields,
        decodeChat_encodeChat] at *
      simp [ih]

theorem decodeConfig_encodeConfig (cfg : Config) :
    decodeConfig (encodeConfig cfg) = some cfg := by
  cases cfg with
  | mk lid h =>
      simp [decodeConfig, encodeConfig, decodeStrField, jsonField,
        decodeHistory_map]

/-- C2: saving any store and immediately loading the written document
yields the store back, whatever state the loader starts from. -/
theorem spec_C2 (st st0 : StoreState) :
    loadHistory (.valid (saveHistoryJson st)) st0 = st := by
  cases st with
  | mk h lid =>
      simp [loadHistory, saveHistoryJson, decodeConfig_encodeConfig]

/-- C7: `loadHistory` on the initial empty state (as invoked from `init`)
yields the empty store both when the file is missing and when its contents
are not valid JSON; being a total function it raises no fault. -/
theorem spec_C7 :
    loadHistory .missing ⟨[], ""⟩ = (⟨[], ""⟩ : StoreState) ∧
    loadHistory .invalid ⟨[], ""⟩ = (⟨[], ""⟩ : StoreState) := by
  exact ⟨rfl, rfl⟩

/-- The innermost `Delta` struct of a stream event (`main.go`). -/
structure StreamDelta where
  content : String
deriving DecidableEq, Repr

/-- One element of the `Choices` slice of a stream event. -/
structure StreamChoice where
  delta : StreamDelta
deriving DecidableEq, Repr

/-- The Go struct `StreamResponse`: the decoded form of one `data:` event
payload. -/
structure StreamResponse where
  choices : List StreamChoice
deriving DecidableEq, Repr

/-- `strings.HasPrefix(line, "data: ")`, expressed on the character list
(the prefix is ASCII, so character positions and byte positions agree). -/
def hasDataTag (l : String) : Prop :=
  l.toList.take 6 = "data: ".toList

instance (l : String) : Decidable (hasDataTag l) := by
  unfold hasDataTag; infer_instance

/-- `strings.TrimPrefix(line, "data: ")`, applied only under the prefix
check: dropping the six prefix characters. -/
def stripData (l : String) : String :=
  ⟨l.toList.drop 6⟩

/-- Embeds the stream-processing loop of `main` (`main.go` lines 280–304):
`u` models `json.Unmarshal` into a `StreamResponse` (`none` = parse
error).  A blank line or a line without the `data: ` prefix is skipped;
payload `[DONE]` breaks out of the loop; a payload that fails to parse, or
parses with no choices, is skipped; otherwise the first choice's delta
content is appended to the accumulator. -/
def reassemble (u : String → Option StreamResponse) : List String → String
  | [] => ""
  | line :: rest =>
      if line = "" then reassemble u rest
      else if hasDataTag line then
        if stripData line = "[DONE]" then ""
        else
          match u (stripData line) with
          | none => reassemble u rest
          | some r =>
              match r.choices with
              | [] => reassemble u rest
              | c :: _ => c.delta.content ++ reassemble u rest
      else reassemble u rest

/-- A line that has the `data: ` prefix and whose payload after stripping
it is exactly `[DONE]`. -/
def isDoneLine (l : String) : Bool :=
  decide (hasDataTag l) && decide (stripData l = "[DONE]")

/-- The delta contributed by one line, per the claim: defined only for
lines with the `data: ` prefix whose payload parses with at least one
choice. -/
def lineDelta (u : String → Option StreamResponse) (l : String) : Option String :=
  if hasDataTag l then
    match u (stripData l) with
    | some r =>
        match r.choices with
        | c :: _ => some c.delta.content
        | [] => none
    | none => none
  else none

/-- In-order concatenation of a list of strings. -/
def concatAll : List String → String
  | [] => ""
  | s :: rest => s ++ concatAll rest

/-- The claim's description of the accumulated text: the in-order
concatenation of the deltas of the contributing lines strictly before the
first `[DONE]` line. -/
def streamSpec (u : String → Option StreamResponse) (lines : List String) : String :=
  concatAll ((lines.takeWhile (fun l => !isDoneLine l)).filterMap (lineDelta u))

theorem reassemble_eq_streamSpec (u : String → Option StreamResponse)
    (lines : List String) : reassemble u lines = streamSpec u lines := by
  induction lines with
  | nil => rfl
  | cons l rest ih =>
      by_cases hblank : l = ""
      · subst hblank
        have hsw : ¬ hasDataTag "" := by decide
        simp [reassemble, streamSpec, List.takeWhile_cons, isDoneLine,
          lineDelta, hsw, concatAll, ih]
      · by_cases hpre : hasDataTag l
        · by_cases hdone : stripData l = "[DONE]"
          · simp [reassemble, streamSpec, List.takeWhile_cons, isDoneLine,
              hblank, hpre, hdone, concatAll]
          · cases hu : u (stripData l) with
            | none =>
                simp [reassemble, streamSpec, List.takeWhile_cons,
                  isDoneLine, lineDelta, hblank, hpre, hdone, hu, concatAll, ih]
            | some r =>
                cases hc : r.choices with
                | nil =>
                    simp [reassemble, streamSpec, List.takeWhile_cons,
                      isDoneLine, lineDelta, hblank, hpre, hdone, hu, hc,
                      concatAll, ih]
                | cons c cs =>
                    simp [reassemble, streamSpec, List.takeWhile_cons,
                      isDoneLine, lineDelta, hblank, hpre, hdone, hu, hc,
                      concatAll, ih]
        · simp [reassemble, streamSpec, List.takeWhile_cons, isDoneLine,
            lineDelta, hblank, hpre, concatAll, ih]

/-- Modelled from Go stdlib `json.Unmarshal` behaviour on the two concrete
payloads of the spec's example stream: each parses to a `StreamResponse`
with one choice whose delta content is `ab` resp. `cd`.  Inputs other than
these two are mapped to a parse failure; the example stream contains no
others. -/
def exampleUnmarshal : String → Option StreamResponse := fun s =>
  if s = "\x7b\"choices\":[\x7b\"delta\":\x7b\"content\":\"ab\"\x7d\x7d]\x7d" then
    some ⟨[⟨⟨"ab"⟩⟩]⟩
  else if s = "\x7b\"choices\":[\x7b\"delta\":\x7b\"content\":\"cd\"\x7d\x7d]\x7d" then
    some ⟨[⟨⟨"cd"⟩⟩]⟩
  else none

/-- C1: the reassembler's accumulated text is exactly the in-order
concatenation of the first choice's delta content of each contributing
`data: ` line strictly before the first `[DONE]` line (blank lines,
unprefixed lines, unparseable payloads and choiceless events contribute
nothing and do not terminate); in particular the spec's three-line example
stream reassembles to `abcd`. -/
theorem spec_C1 :
    (∀ (u : String → Option StreamResponse) (lines : List String),
      reassemble u lines = streamSpec u lines) ∧
    reassemble exampleUnmarshal
      ["data: \x7b\"choices\":[\x7b\"delta\":\x7b\"content\":\"ab\"\x7d\x7d]\x7d",
       "data: \x7b\"choices\":[\x7b\"delta\":\x7b\"content\":\"cd\"\x7d\x7d]\x7d",
       "data: [DONE]"] = "abcd" :=
  ⟨reassemble_eq_streamSpec, by decide⟩

/-- The system-role content used when seeding a new conversation: the
external `DEEPSEEK_ROLE` override when set, otherwise the built-in default
instruction (richer variant of `main`, lines 333–336). -/
def defaultSystemContent (roleEnv : String) : String :=
  if roleEnv = "" then "You are a helpful assistant. Be concise." else roleEnv

/-- A freshly constructed conversation: `created_at = now` and a single
system message. -/
def seedChat (roleEnv : String) (now : Int) : Chat :=
  ⟨now, [⟨"system", defaultSystemContent roleEnv⟩]⟩

/-- Embeds the user-turn append of `main` (richer variant lines 329–347):
look the conversation up, seed it if absent, append the user message, and
store it back; returns the new state together with the local `chat`
value that the rest of `main` keeps using. -/
def appendUserTurn (st : StoreState) (id roleEnv : String) (now : Int)
    (prompt : String) : StoreState × Chat :=
  let chat :=
    match lookupChat st.chatHistory id with
    | none => seedChat roleEnv now
    | some c => c
  let chat2 := { chat with messages := chat.messages ++ [⟨"user", prompt⟩] }
  (⟨insertChat st.chatHistory id chat2, st.lastChatID⟩, chat2)

/-- Embeds the assistant-turn append of `main` (richer variant lines
477–482): append the assistant reply to the local `chat` value and store
it back. -/
def appendAssistantTurn (st : StoreState) (id : String) (chat : Chat)
    (reply : String) : StoreState × Chat :=
  let chat2 := { chat with messages := chat.messages ++ [⟨"assistant", reply⟩] }
  (⟨insertChat st.chatHistory id chat2, st.lastChatID⟩, chat2)

/-- The conversation-store effect of one complete successful invocation on
a given id: user turn then assistant turn. -/
def runTurn (st : StoreState) (id roleEnv : String) (now : Int)
    (prompt reply : String) : StoreState :=
  let s := appendUserTurn st id roleEnv now prompt
  (appendAssistantTurn s.1 id s.2 reply).1

theorem lookupChat_insertChat (h : List (String × Chat)) (id : String) (c : Chat) :
    lookupChat (insertChat h id c) id = some c := by
  induction h with
  | nil => simp [insertChat, lookupChat]
  | cons p rest ih =>
      by_cases hk : p.1 = id
      · simp [insertChat, hk, lookupChat]
      · cases p with
        | mk k v =>
            simp only at hk
            simp [insertChat, hk, lookupChat, ih]

/-- The conversation at `id` exists and its first message is `m`. -/
def sysHeadInv (h : List (String × Chat)) (id : String) (m : Message) : Prop :=
  ∃ c, lookupChat h id = some c ∧ c.messages.head? = some m

theorem runTurn_sysHeadInv (st : StoreState) (id roleEnv : String) (now : Int)
    (p r : String) (m : Message) (h : sysHeadInv st.chatHistory id m) :
    sysHeadInv (runTurn st id roleEnv now p r).chatHistory id m := by
  obtain ⟨c, hc, hhead⟩ := h
  cases hm : c.messages with
  | nil => simp [hm] at hhead
  | cons m0 tail =>
      rw [hm] at hhead
      simp only [List.head?_cons, Option.some.injEq] at hhead
      subst hhead
      refine ⟨{ c with messages :=
          (c.messages ++ [⟨"user", p⟩]) ++ [⟨"assistant", r⟩] }, ?_, ?_⟩
      · simp [runTurn, appendUserTurn, appendAssistantTurn, hc,
          lookupChat_insertChat]
      · simp [hm]

theorem foldl_runTurn_sysHeadInv (id roleEnv : String) (m : Message)
    (turns : List (Int × String × String)) (st : StoreState)
    (h : sysHeadInv st.chatHistory id m) :
    sysHeadInv
      ((turns.foldl
        (fun s t => runTurn s id roleEnv t.1 t.2.1 t.2.2) st).chatHistory)
      id m := by
  induction turns generalizing st with
  | nil => exact h
  | cons t rest ih =>
      exact ih _ (runTurn_sysHeadInv st id roleEnv t.1 t.2.1 t.2.2 m h)

/-- C3: submitting a prompt under an id absent from the store seeds the
conversation with a system message (content: the external override when
set, else the built-in default) followed by the user message carrying
exactly the prompt; and however many complete turns are appended
afterwards, the conversation's first message remains that system
message. -/
theorem spec_C3 (st : StoreState) (id roleEnv : String) (now : Int)
    (prompt : String) (habs : lookupChat st.chatHistory id = none) :
    (appendUserTurn st id roleEnv now prompt).2.messages
        = [⟨"system", defaultSystemContent roleEnv⟩, ⟨"user", prompt⟩]
    ∧ ∀ (reply : String) (turns : List (Int × String × String)) (c : Chat),
        lookupChat
          ((turns.foldl (fun s t => runTurn s id roleEnv t.1 t.2.1 t.2.2)
            (appendAssistantTurn (appendUserTurn st id roleEnv now prompt).1
              id (appendUserTurn st id roleEnv now prompt).2 reply).1).chatHistory)
          id = some c →
        c.messages.head? = some ⟨"system", defaultSystemContent roleEnv⟩ := by
  constructor
  · simp [appendUserTurn, habs, seedChat]
  · intro reply turns c hc
    have hstart : sysHeadInv
        ((appendAssistantTurn (appendUserTurn st id roleEnv now prompt).1
          id (appendUserTurn st id roleEnv now prompt).2 reply).1).chatHistory
        id ⟨"system", defaultSystemContent roleEnv⟩ := by
      refine ⟨⟨now, [⟨"system", defaultSystemContent roleEnv⟩,
          ⟨"user", prompt⟩, ⟨"assistant", reply⟩]⟩, ?_, ?_⟩
      · simp [appendUserTurn, appendAssistantTurn, habs, seedChat,
          lookupChat_insertChat]
      · simp
    have := foldl_runTurn_sysHeadInv id roleEnv
      ⟨"system", defaultSystemContent roleEnv⟩ turns _ hstart
    obtain ⟨c', hc', hhead⟩ := this
    rw [hc] at hc'
    cases hc'
    exact hhead

/-- Witness for C3 at a concrete input: the empty store, id `a`, no
external override, prompt `hi`. -/
theorem spec_C3_witness :
    lookupChat (⟨[], ""⟩ : StoreState).chatHistory "a" = none ∧
    ((appendUserTurn ⟨[], ""⟩ "a" "" 0 "hi").2.messages
        = [⟨"system", defaultSystemContent ""⟩, ⟨"user", "hi"⟩]
    ∧ ∀ (reply : String) (turns : List (Int × String × String)) (c : Chat),
        lookupChat
          ((turns.foldl (fun s t => runTurn s "a" "" t.1 t.2.1 t.2.2)
            (appendAssistantTurn (appendUserTurn ⟨[], ""⟩ "a" "" 0 "hi").1
              "a" (appendUserTurn ⟨[], ""⟩ "a" "" 0 "hi").2 reply).1).chatHistory)
          "a" = some c →
        c.messages.head? = some ⟨"system", defaultSystemContent ""⟩) :=
  ⟨rfl, spec_C3 ⟨[], ""⟩ "a" "" 0 "hi" rfl⟩

/-- What `removeChats` reports: the age-based bulk removal (with the
cutoff and each removed id), a single removal by id, or the
not-found/invalid-input message. -/
inductive RemoveOutcome where
  | byAge (cutoff : Int) (removed : List String)
  | byId (id : String)
  | notFound
deriving DecidableEq, Repr

/-- Embeds `removeChats` (`main.go` lines 320–352).  `pd` models
`time.ParseDuration` (`none` = parse error); durations and timestamps are
in the same integer unit.  If the criteria parses as a duration, every
chat created before `now - d` is deleted and reported; otherwise the
criteria is treated as a literal id: deleted if present, else the
invalid-input message is printed and nothing changes. -/
def removeChats (pd : String → Option Int) (now : Int)
    (h : List (String × Chat)) (criteria : String) :
    List (String × Chat) × RemoveOutcome :=
  match pd criteria with
  | some d =>
      let cutoff := now - d
      (h.filter (fun p => !decide (p.2.createdAt < cutoff)),
       .byAge cutoff
         ((h.filter (fun p => decide (p.2.createdAt < cutoff))).map Prod.fst))
  | none =>
      match lookupChat h criteria with
      | some _ => (eraseChat h criteria, .byId criteria)
      | none => (h, .notFound)

/-- The ids whose deletion the operation reports. -/
def removedIds : RemoveOutcome → List String
  | .byAge _ l => l
  | .byId i => [i]
  | .notFound => []

theorem lookupChat_filter_of_none (p : String × Chat → Bool)
    (h : List (String × Chat)) (id : String)
    (hl : lookupChat h id = none) :
    lookupChat (h.filter p) id = none := by
  induction h with
  | nil => simp [lookupChat]
  | cons q rest ih =>
      cases q with
      | mk k v =>
          by_cases hk : k = id
          · simp [lookupChat, hk] at hl
          · simp only [lookupChat, if_neg hk] at hl
            by_cases hp : p (k, v) = true
            · simp [List.filter_cons, hp, lookupChat, hk, ih hl]
            · simp only [Bool.not_eq_true] at hp
              simp [List.filter_cons, hp, ih hl]

theorem lookupChat_not_mem (h : List (String × Chat)) (id : String)
    (hm : id ∉ h.map Prod.fst) : lookupChat h id = none := by
  induction h with
  | nil => simp [lookupChat]
  | cons q rest ih =>
      simp only [List.map_cons, List.mem_cons, not_or] at hm
      cases q with
      | mk k v =>
          have hk : k ≠ id := fun e => hm.1 e.symm
          simp [lookupChat, hk, ih hm.2]

theorem lookupChat_filter_keep (p : String × Chat → Bool)
    (h : List (String × Chat)) (id : String) (c : Chat)
    (hl : lookupChat h id = some c) (hp : p (id, c) = true) :
    lookupChat (h.filter p) id = some c := by
  induction h with
  | nil => simp [lookupChat] at hl
  | cons q rest ih =>
      cases q with
      | mk k v =>
          by_cases hk : k = id
          · subst hk
            have hl' : v = c := by simpa [lookupChat] using hl
            subst hl'
            simp [List.filter_cons, hp, lookupChat]
          · simp only [lookupChat, if_neg hk] at hl
            by_cases hq : p (k, v) = true
            · simp [List.filter_cons, hq, lookupChat, hk, ih hl]
            · simp only [Bool.not_eq_true] at hq
              simp [List.filter_cons, hq, ih hl]

theorem lookupChat_filter_drop (p : String × Chat → Bool)
    (h : List (String × Chat)) (id : String) (c : Chat)
    (hnd : (h.map Prod.fst).Nodup)
    (hl : lookupChat h id = some c) (hp : p (id, c) = false) :
    lookupChat (h.filter p) id = none := by
  induction h with
  | nil => simp [lookupChat] at hl
  | cons q rest ih =>
      cases q with
      | mk k v =>
          simp only [List.map_cons, List.nodup_cons] at hnd
          by_cases hk : k = id
          · subst hk
            have hl' : v = c := by simpa [lookupChat] using hl
            subst hl'
            simp only [List.filter_cons, hp, if_neg]
            simp only [Bool.false_eq_true, if_false]
            exact lookupChat_filter_of_none p rest k
              (lookupChat_not_mem rest k hnd.1)
          · simp only [lookupChat, if_neg hk] at hl
            by_cases hq : p (k, v) = true
            · simp [List.filter_cons, hq, lookupChat, hk, ih hnd.2 hl]
            · simp only [Bool.not_eq_true] at hq
              simp [List.filter_cons, hq, ih hnd.2 hl]

theorem filter_mem_of_lookup (p : String × Chat → Bool)
    (h : List (String × Chat)) (id : String) (c : Chat)
    (hl : lookupChat h id = some c) (hp : p (id, c) = true) :
    id ∈ (h.filter p).map Prod.fst := by
  induction h with
  | nil => simp [lookupChat] at hl
  | cons q rest ih =>
      cases q with
      | mk k v =>
          by_cases hk : k = id
          · subst hk
            have hl' : v = c := by simpa [lookupChat] using hl
            subst hl'
            simp [List.filter_cons, hp]
          · simp only [lookupChat, if_neg hk] at hl
            by_cases hq : p (k, v) = true
            · simp [List.filter_cons, hq, ih hl]
            · simp only [Bool.not_eq_true] at hq
              simp [List.filter_cons, hq, ih hl]

theorem lookupChat_eraseChat_self (h : List (String × Chat)) (id : String) :
    lookupChat (eraseChat h id) id = none := by
  induction h with
  | nil => simp [eraseChat, lookupChat]
  | cons q rest ih =>
      cases q with
      | mk k v =>
          by_cases hk : k = id
          · simpa [eraseChat, List.filter_cons, hk] using ih
          · simpa [eraseChat, List.filter_cons, hk, lookupChat] using ih

theorem lookupChat_eraseChat_ne (h : List (String × Chat))
    (crit id : String) (hne : id ≠ crit) :
    lookupChat (eraseChat h crit) id = lookupChat h id := by
  induction h with
  | nil => simp [eraseChat]
  | cons q rest ih =>
      cases q with
      | mk k v =>
          by_cases hk : k = crit
          · subst hk
            have : k ≠ id := fun e => hne (e.symm)
            simpa [eraseChat, List.filter_cons, lookupChat, this] using ih
          · by_cases hid : k = id
            · simp [eraseChat, List.filter_cons, hk, lookupChat, hid, hne]
            · simpa [eraseChat, List.filter_cons, hk, lookupChat, hid] using ih

/-- C4: with a parseable duration, `removeChats` deletes exactly the
conversations created strictly before `now - d` (reporting each deleted
id) and leaves every other conversation untouched; with an unparseable
input it deletes the literal id if present, and otherwise reports
not-found and leaves the store completely unchanged. -/
theorem spec_C4 (pd : String → Option Int) (now : Int)
    (h : List (String × Chat)) (criteria : String)
    (hnd : (h.map Prod.fst).Nodup) :
    (∀ d, pd criteria = some d →
      (∀ id c, lookupChat h id = some c →
        (c.createdAt < now - d →
          lookupChat (removeChats pd now h criteria).1 id = none
          ∧ id ∈ removedIds (removeChats pd now h criteria).2)
        ∧ (¬ c.createdAt < now - d →
          lookupChat (removeChats pd now h criteria).1 id = some c))
      ∧ (∀ id, lookupChat h id = none →
          lookupChat (removeChats pd now h criteria).1 id = none))
    ∧ (pd criteria = none →
      (∀ c, lookupChat h criteria = some c →
        lookupChat (removeChats pd now h criteria).1 criteria = none
        ∧ (∀ id, id ≠ criteria →
            lookupChat (removeChats pd now h criteria).1 id = lookupChat h id)
        ∧ (removeChats pd now h criteria).2 = .byId criteria)
      ∧ (lookupChat h criteria = none →
        (removeChats pd now h criteria).1 = h
        ∧ (removeChats pd now h criteria).2 = .notFound)) := by
  constructor
  · intro d hpd
    constructor
    · intro id c hl
      constructor
      · intro hold
        constructor
        · rw [removeChats, hpd]
          exact lookupChat_filter_drop _ h id c hnd hl (by simp [hold])
        · rw [removeChats, hpd]
          simpa [removedIds] using
            filter_mem_of_lookup (fun q => decide (q.2.createdAt < now - d))
              h id c hl (decide_eq_true hold)
      · intro hyoung
        rw [removeChats, hpd]
        exact lookupChat_filter_keep _ h id c hl (by simp [hyoung])
    · intro id hl
      rw [removeChats, hpd]
      exact lookupChat_filter_of_none _ h id hl
  · intro hpd
    constructor
    · intro c hl
      refine ⟨?_, ?_, ?_⟩
      · rw [removeChats, hpd, hl]
        exact lookupChat_eraseChat_self h criteria
      · intro id hne
        rw [removeChats, hpd, hl]
        exact lookupChat_eraseChat_ne h criteria id hne
      · rw [removeChats, hpd, hl]
    · intro hl
      rw [removeChats, hpd, hl]
      exact ⟨rfl, rfl⟩

/-- Witness for C4 at a concrete input: a two-chat store, a parser that
accepts only `24h`, criteria `gone` (not a duration, not a stored id). -/
theorem spec_C4_witness :
    ([("a", (⟨5, []⟩ : Chat)), ("b", ⟨-5, []⟩)].map Prod.fst).Nodup ∧
    (removeChats (fun s => if s = "24h" then some 10 else none) 0
      [("a", ⟨5, []⟩), ("b", ⟨-5, []⟩)] "gone").1
        = [("a", ⟨5, []⟩), ("b", ⟨-5, []⟩)] ∧
    (removeChats (fun s => if s = "24h" then some 10 else none) 0
      [("a", ⟨5, []⟩), ("b", ⟨-5, []⟩)] "gone").2 = .notFound := by
  refine ⟨by decide, ?_⟩
  exact ((spec_C4 (fun s => if s = "24h" then some 10 else none) 0
    [("a", ⟨5, []⟩), ("b", ⟨-5, []⟩)] "gone" (by decide)).2 rfl).2 rfl

/-- C10: when the criteria parses as a non-positive duration, the cutoff
`now - d` is at or after `now`, so every conversation whose `created_at`
lies strictly in the past is deleted. -/
theorem spec_C10 (pd : String → Option Int) (now : Int)
    (h : List (String × Chat)) (criteria : String) (d : Int)
    (hnd : (h.map Prod.fst).Nodup)
    (hpd : pd criteria = some d) (hd : d ≤ 0) :
    now ≤ now - d
    ∧ ∀ id c, lookupChat h id = some c → c.createdAt < now →
        lookupChat (removeChats pd now h criteria).1 id = none := by
  constructor
  · omega
  · intro id c hl hpast
    rw [removeChats, hpd]
    exact lookupChat_filter_drop _ h id c hnd hl (by simp; omega)

/-- Witness for C10 at a concrete input: duration `0s` parsed as `0`, one
chat created in the past; it is deleted. -/
theorem spec_C10_witness :
    ([("x", (⟨-1, []⟩ : Chat))].map Prod.fst).Nodup ∧
    (fun s => if s = "0s" then some (0 : Int) else none) "0s" = some 0 ∧
    (0 : Int) ≤ 0 ∧
    ((0 : Int) ≤ 0 - 0
      ∧ ∀ id c, lookupChat [("x", ⟨-1, []⟩)] id = some c → c.createdAt < 0 →
          lookupChat (removeChats
            (fun s => if s = "0s" then some (0 : Int) else none) 0
            [("x", ⟨-1, []⟩)] "0s").1 id = none) := by
  refine ⟨by decide, rfl, by decide, ?_⟩
  exact spec_C10 (fun s => if s = "0s" then some (0 : Int) else none) 0
    [("x", ⟨-1, []⟩)] "0s" 0 (by decide) rfl (by decide)

/-- Observable milestones of one invocation of `main`, in program order:
the user-turn append, the completion POST, the error-body dump of a
non-success response, the assistant-turn append, and the history-file
write. -/
inductive Event where
  | appendUser (content : String)
  | netCall
  | surfaceBody (body : String)
  | appendAssistant (content : String)
  | save
deriving DecidableEq, Repr

/-- The command-line surface of `main` (richer variant lines 269–277):
flags plus positional arguments. -/
structure Flags where
  model : String
  chat : String
  newChat : Bool
  debug : Bool
  ls : Bool
  listModels : Bool
  checkStatus : Bool
  rm : String
  verbose : Bool
  args : List String
deriving DecidableEq, Repr

/-- The outcome of `client.Do`: a transport error, or a response with an
HTTP status, the readability and text of the body (used on the error
path), the body's lines (used on the stream path), and whether the
scanner reports a read error at the end. -/
inductive NetOutcome where
  | transportError
  | httpResponse (status : Int) (bodyReadOk : Bool) (body : String)
      (lines : List String) (readErr : Bool)
deriving DecidableEq, Repr

/-- The fallible steps around the request: `json.Marshal` and
`http.NewRequest` (their error returns are checked by the code), and the
transport outcome. -/
structure NetEnv where
  marshalFails : Bool
  newRequestFails : Bool
  outcome : NetOutcome
deriving DecidableEq, Repr

/-- The observable result of one invocation: the final in-memory store,
the history-file document if this invocation wrote one (`none` = the file
is untouched), the event trace, and the diagnostics printed. -/
structure RunResult where
  store : StoreState
  disk : Option Json
  events : List Event
  printed : List String

/-- The diagnostics `removeChats` prints. -/
def reportLines : RemoveOutcome → List String
  | .byAge _ removed =>
      removed.map (fun id => "Chat ID: " ++ id ++ " removed due to age.")
  | .byId id => ["Chat ID: " ++ id ++ " removed."]
  | .notFound => ["Invalid input: not a valid duration or chat ID."]

/-- Embeds the control flow of `main` (richer variant lines 267–484; the
shorter `main.go` differs only in lacking the `-status`/`-models` commands
and the non-success status check).  The `-status` and `-models` commands
are external glue returning without touching the store or the completion
endpoint; their own HTTP GETs are not events.  After the early commands:
missing credential and missing prompt argument return with a diagnostic;
the user turn is appended before the request is built; every failure from
marshalling to stream reading returns without saving; only the full
success path appends the assistant message and writes the file. -/
def runMain (fl : Flags) (apiKey roleEnv genID : String) (now : Int)
    (net : NetEnv) (u : String → Option StreamResponse)
    (pd : String → Option Int) (st : StoreState) : RunResult :=
  if fl.checkStatus then ⟨st, none, [], []⟩
  else if fl.listModels then ⟨st, none, [], []⟩
  else if fl.rm ≠ "" then
    let r := removeChats pd now st.chatHistory fl.rm
    let st2 : StoreState := ⟨r.1, st.lastChatID⟩
    ⟨st2, some (saveHistoryJson st2), [.save], reportLines r.2⟩
  else if fl.ls then ⟨st, none, [], []⟩
  else if apiKey = "" then
    ⟨st, none, [],
     ["Error: DEEPSEEK_API_KEY environment variable is not set."]⟩
  else
    let id := if fl.newChat ∨ (fl.chat = "" ∧ st.lastChatID = "") then genID
              else if fl.chat = "" then st.lastChatID
              else fl.chat
    let st1 : StoreState := ⟨st.chatHistory, id⟩
    match fl.args with
    | [] => ⟨st1, none, [],
        ["Error: You must provide a prompt as an argument."]⟩
    | prompt :: _ =>
        let s2 := appendUserTurn st1 id roleEnv now prompt
        if net.marshalFails then
          ⟨s2.1, none, [.appendUser prompt],
           ["Error marshaling request body:"]⟩
        else if net.newRequestFails then
          ⟨s2.1, none, [.appendUser prompt], ["Error creating request:"]⟩
        else
          match net.outcome with
          | .transportError =>
              ⟨s2.1, none, [.appendUser prompt, .netCall],
               ["Error making request:"]⟩
          | .httpResponse status bodyReadOk body lines readErr =>
              if status ≠ 200 then
                if bodyReadOk then
                  ⟨s2.1, none,
                   [.appendUser prompt, .netCall, .surfaceBody body],
                   ["API Error Response: " ++ body]⟩
                else
                  ⟨s2.1, none, [.appendUser prompt, .netCall],
                   ["Error reading error response:"]⟩
              else
                let content := reassemble u lines
                if readErr then
                  ⟨s2.1, none, [.appendUser prompt, .netCall],
                   ["Error reading stream:"]⟩
                else
                  let s3 := appendAssistantTurn s2.1 id s2.2 content
                  ⟨s3.1, some (saveHistoryJson s3.1),
                   [.appendUser prompt, .netCall, .appendAssistant content,
                    .save], []⟩

theorem appendTurns_lastChatID (st1 : StoreState) (id roleEnv : String)
    (now : Int) (p a : String) :
    (appendAssistantTurn (appendUserTurn st1 id roleEnv now p).1 id
      (appendUserTurn st1 id roleEnv now p).2 a).1.lastChatID
      = st1.lastChatID := by
  cases hlc : lookupChat st1.chatHistory id with
  | none => simp [appendUserTurn, appendAssistantTurn, hlc]
  | some cc => simp [appendUserTurn, appendAssistantTurn, hlc]

theorem appendTurns_lookup (st1 : StoreState) (id roleEnv : String)
    (now : Int) (p a : String) :
    ∃ c, lookupChat
        (appendAssistantTurn (appendUserTurn st1 id roleEnv now p).1 id
          (appendUserTurn st1 id roleEnv now p).2 a).1.chatHistory id
        = some c
      ∧ ∃ base, c.messages = base ++ [⟨"user", p⟩, ⟨"assistant", a⟩] := by
  cases hlc : lookupChat st1.chatHistory id with
  | none =>
      refine ⟨⟨now, ((seedChat roleEnv now).messages ++ [⟨"user", p⟩])
        ++ [⟨"assistant", a⟩]⟩, ?_, ⟨(seedChat roleEnv now).messages, by simp⟩⟩
      simp [appendUserTurn, appendAssistantTurn, hlc, seedChat,
        lookupChat_insertChat]
  | some cc =>
      refine ⟨⟨cc.createdAt, (cc.messages ++ [⟨"user", p⟩])
        ++ [⟨"assistant", a⟩]⟩, ?_, ⟨cc.messages, by simp⟩⟩
      simp [appendUserTurn, appendAssistantTurn, hlc, lookupChat_insertChat]

/-- C5: in any invocation outside the early commands, the trace appends
the user message before the network call and saves only after the
assistant append; the history file is either untouched or holds the final
store, in which the conversation ends with the user prompt followed by
the assistant reply. -/
theorem spec_C5 (fl : Flags) (apiKey roleEnv genID : String) (now : Int)
    (net : NetEnv) (u : String → Option StreamResponse)
    (pd : String → Option Int) (st : StoreState)
    (h1 : fl.checkStatus = false) (h2 : fl.listModels = false)
    (h3 : fl.rm = "") (h4 : fl.ls = false) :
    ((runMain fl apiKey roleEnv genID now net u pd st).events = []
      ∨ (∃ p, (runMain fl apiKey roleEnv genID now net u pd st).events
          = [.appendUser p])
      ∨ (∃ p, (runMain fl apiKey roleEnv genID now net u pd st).events
          = [.appendUser p, .netCall])
      ∨ (∃ p b, (runMain fl apiKey roleEnv genID now net u pd st).events
          = [.appendUser p, .netCall, .surfaceBody b])
      ∨ (∃ p a, (runMain fl apiKey roleEnv genID now net u pd st).events
          = [.appendUser p, .netCall, .appendAssistant a, .save]))
    ∧ ((runMain fl apiKey roleEnv genID now net u pd st).disk = none
      ∨ ∃ p a c,
          (runMain fl apiKey roleEnv genID now net u pd st).disk
            = some (saveHistoryJson
                (runMain fl apiKey roleEnv genID now net u pd st).store)
          ∧ (runMain fl apiKey roleEnv genID now net u pd st).events
            = [.appendUser p, .netCall, .appendAssistant a, .save]
          ∧ lookupChat
              (runMain fl apiKey roleEnv genID now net u pd st).store.chatHistory
              (runMain fl apiKey roleEnv genID now net u pd st).store.lastChatID
            = some c
          ∧ ∃ base, c.messages = base ++ [⟨"user", p⟩, ⟨"assistant", a⟩]) := by
  by_cases hkey : apiKey = ""
  · constructor
    · exact Or.inl (by simp [runMain, h1, h2, h3, h4, hkey])
    · exact Or.inl (by simp [runMain, h1, h2, h3, h4, hkey])
  · cases hargs : fl.args with
    | nil =>
        constructor
        · exact Or.inl (by simp [runMain, h1, h2, h3, h4, hkey, hargs])
        · exact Or.inl (by simp [runMain, h1, h2, h3, h4, hkey, hargs])
    | cons prompt rest =>
        cases hm : net.marshalFails with
        | true =>
            constructor
            · exact Or.inr (Or.inl ⟨prompt,
                by simp [runMain, h1, h2, h3, h4, hkey, hargs, hm]⟩)
            · exact Or.inl (by simp [runMain, h1, h2, h3, h4, hkey, hargs, hm])
        | false =>
            cases hnr : net.newRequestFails with
            | true =>
                constructor
                · exact Or.inr (Or.inl ⟨prompt,
                    by simp [runMain, h1, h2, h3, h4, hkey, hargs, hm, hnr]⟩)
                · exact Or.inl
                    (by simp [runMain, h1, h2, h3, h4, hkey, hargs, hm, hnr])
            | false =>
                cases hout : net.outcome with
                | transportError =>
                    constructor
                    · exact Or.inr (Or.inr (Or.inl ⟨prompt,
                        by simp [runMain, h1, h2, h3, h4, hkey, hargs, hm,
                          hnr, hout]⟩))
                    · exact Or.inl (by simp [runMain, h1, h2, h3, h4, hkey,
                        hargs, hm, hnr, hout])
                | httpResponse status bodyReadOk body lines readErr =>
                    by_cases hs : status = 200
                    · cases hre : readErr with
                      | true =>
                          constructor
                          · exact Or.inr (Or.inr (Or.inl ⟨prompt,
                              by simp [runMain, h1, h2, h3, h4, hkey, hargs,
                                hm, hnr, hout, hs, hre]⟩))
                          · exact Or.inl (by simp [runMain, h1, h2, h3, h4,
                              hkey, hargs, hm, hnr, hout, hs, hre])
                      | false =>
                          constructor
                          · exact Or.inr (Or.inr (Or.inr (Or.inr
                              ⟨prompt, reassemble u lines,
                                by simp [runMain, h1, h2, h3, h4, hkey, hargs,
                                  hm, hnr, hout, hs, hre]⟩)))
                          · refine Or.inr ⟨prompt, reassemble u lines, ?_⟩
                            simp only [runMain, h1, h2, h3, h4, hkey, hargs,
                              hm, hnr, hout, hs, hre]
                            simp only [Bool.false_eq_true, if_false,
                              ite_self, ne_eq, not_true_eq_false,
                              not_false_eq_true, if_true, reduceIte]
                            obtain ⟨c, hc, base, hbase⟩ :=
                              appendTurns_lookup
                                ⟨st.chatHistory,
                                  if fl.newChat ∨ (fl.chat = "" ∧ st.lastChatID = "")
                                  then genID
                                  else if fl.chat = "" then st.lastChatID
                                  else fl.chat⟩
                                (if fl.newChat ∨ (fl.chat = "" ∧ st.lastChatID = "")
                                  then genID
                                  else if fl.chat = "" then st.lastChatID
                                  else fl.chat)
                                roleEnv now prompt (reassemble u lines)
                            refine ⟨c, trivial, trivial, ?_, base, hbase⟩
                            rw [appendTurns_lastChatID]
                            exact hc
                    · cases hok : bodyReadOk with
                      | true =>
                          constructor
                          · exact Or.inr (Or.inr (Or.inr (Or.inl
                              ⟨prompt, body,
                                by simp [runMain, h1, h2, h3, h4, hkey, hargs,
                                  hm, hnr, hout, hs, hok]⟩)))
                          · exact Or.inl (by simp [runMain, h1, h2, h3, h4,
                              hkey, hargs, hm, hnr, hout, hs, hok])
                      | false =>
                          constructor
                          · exact Or.inr (Or.inr (Or.inl ⟨prompt,
                              by simp [runMain, h1, h2, h3, h4, hkey, hargs,
                                hm, hnr, hout, hs, hok]⟩))
                          · exact Or.inl (by simp [runMain, h1, h2, h3, h4,
                              hkey, hargs, hm, hnr, hout, hs, hok])

/-- Concrete flags for witnesses: a plain prompt-submitting invocation. -/
def wFl : Flags :=
  ⟨"deepseek-chat", "", false, false, false, false, false, "", false, ["hi"]⟩

/-- Concrete network environment for witnesses: a clean 200 response whose
body is the single `[DONE]` line. -/
def wNet : NetEnv := ⟨false, false, .httpResponse 200 true "" ["data: [DONE]"] false⟩

/-- Concrete unmarshal oracle for witnesses: everything fails to parse. -/
def wU : String → Option StreamResponse := fun _ => none

/-- Concrete duration parser for witnesses: nothing parses. -/
def wPd : String → Option Int := fun _ => none

/-- Concrete initial store for witnesses: empty. -/
def wSt : StoreState := ⟨[], ""⟩

/-- Witness for C5 at a concrete successful invocation. -/
theorem spec_C5_witness :
    wFl.checkStatus = false ∧ wFl.listModels = false ∧ wFl.rm = ""
    ∧ wFl.ls = false
    ∧ (((runMain wFl "k" "" "g" 0 wNet wU wPd wSt).events = []
        ∨ (∃ p, (runMain wFl "k" "" "g" 0 wNet wU wPd wSt).events
            = [.appendUser p])
        ∨ (∃ p, (runMain wFl "k" "" "g" 0 wNet wU wPd wSt).events
            = [.appendUser p, .netCall])
        ∨ (∃ p b, (runMain wFl "k" "" "g" 0 wNet wU wPd wSt).events
            = [.appendUser p, .netCall, .surfaceBody b])
        ∨ (∃ p a, (runMain wFl "k" "" "g" 0 wNet wU wPd wSt).events
            = [.appendUser p, .netCall, .appendAssistant a, .save]))
      ∧ ((runMain wFl "k" "" "g" 0 wNet wU wPd wSt).disk = none
        ∨ ∃ p a c,
            (runMain wFl "k" "" "g" 0 wNet wU wPd wSt).disk
              = some (saveHistoryJson
                  (runMain wFl "k" "" "g" 0 wNet wU wPd wSt).store)
            ∧ (runMain wFl "k" "" "g" 0 wNet wU wPd wSt).events
              = [.appendUser p, .netCall, .appendAssistant a, .save]
            ∧ lookupChat
                (runMain wFl "k" "" "g" 0 wNet wU wPd wSt).store.chatHistory
                (runMain wFl "k" "" "g" 0 wNet wU wPd wSt).store.lastChatID
              = some c
            ∧ ∃ base, c.messages
                = base ++ [⟨"user", p⟩, ⟨"assistant", a⟩])) :=
  ⟨rfl, rfl, rfl, rfl, spec_C5 wFl "k" "" "g" 0 wNet wU wPd wSt rfl rfl rfl rfl⟩

/-- C6: a non-success HTTP status is terminal: the trace ends at the
network call (the body is surfaced when readable), so the assistant is
never appended, nothing is saved, the file is untouched, and exactly one
request was made. -/
theorem spec_C6 (fl : Flags) (apiKey roleEnv genID : String) (now : Int)
    (net : NetEnv) (u : String → Option StreamResponse)
    (pd : String → Option Int) (st : StoreState)
    (prompt : String) (rest : List String)
    (status : Int) (bodyReadOk : Bool) (body : String)
    (lines : List String) (readErr : Bool)
    (h1 : fl.checkStatus = false) (h2 : fl.listModels = false)
    (h3 : fl.rm = "") (h4 : fl.ls = false)
    (hkey : apiKey ≠ "") (hargs : fl.args = prompt :: rest)
    (hm : net.marshalFails = false) (hnr : net.newRequestFails = false)
    (hout : net.outcome = .httpResponse status bodyReadOk body lines readErr)
    (hs : status ≠ 200) :
    (runMain fl apiKey roleEnv genID now net u pd st).disk = none
    ∧ (runMain fl apiKey roleEnv genID now net u pd st).events
        = [.appendUser prompt, .netCall]
          ++ (if bodyReadOk then [.surfaceBody body] else [])
    ∧ (∀ a, Event.appendAssistant a
        ∉ (runMain fl apiKey roleEnv genID now net u pd st).events)
    ∧ Event.save ∉ (runMain fl apiKey roleEnv genID now net u pd st).events
    ∧ ((runMain fl apiKey roleEnv genID now net u pd st).events.count
        Event.netCall = 1) := by
  cases hok : bodyReadOk with
  | true =>
      refine ⟨?_, ?_, ?_, ?_, ?_⟩ <;>
        simp [runMain, h1, h2, h3, h4, hkey, hargs, hm, hnr, hout, hs, hok,
          List.count_cons]
  | false =>
      refine ⟨?_, ?_, ?_, ?_, ?_⟩ <;>
        simp [runMain, h1, h2, h3, h4, hkey, hargs, hm, hnr, hout, hs, hok,
          List.count_cons]

/-- Concrete network environment for the C6 witness: a 500 response with a
readable error body. -/
def wNetErr : NetEnv := ⟨false, false, .httpResponse 500 true "oops" [] false⟩

/-- Witness for C6 at a concrete invocation receiving a 500. -/
theorem spec_C6_witness :
    wFl.checkStatus = false ∧ wFl.listModels = false ∧ wFl.rm = ""
    ∧ wFl.ls = false ∧ ("k" : String) ≠ "" ∧ wFl.args = "hi" :: []
    ∧ wNetErr.marshalFails = false ∧ wNetErr.newRequestFails = false
    ∧ wNetErr.outcome = .httpResponse 500 true "oops" [] false
    ∧ (500 : Int) ≠ 200
    ∧ ((runMain wFl "k" "" "g" 0 wNetErr wU wPd wSt).disk = none
      ∧ (runMain wFl "k" "" "g" 0 wNetErr wU wPd wSt).events
          = [.appendUser "hi", .netCall]
            ++ (if true then [.surfaceBody "oops"] else [])
      ∧ (∀ a, Event.appendAssistant a
          ∉ (runMain wFl "k" "" "g" 0 wNetErr wU wPd wSt).events)
      ∧ Event.save ∉ (runMain wFl "k" "" "g" 0 wNetErr wU wPd wSt).events
      ∧ ((runMain wFl "k" "" "g" 0 wNetErr wU wPd wSt).events.count
          Event.netCall = 1)) :=
  ⟨by decide, by decide, rfl, rfl, by decide, rfl, rfl, rfl, rfl, by decide,
   spec_C6 wFl "k" "" "g" 0 wNetErr wU wPd wSt "hi" [] 500 true "oops" []
     false rfl rfl rfl rfl (by decide) rfl rfl rfl rfl (by decide)⟩

/-- C9: on every fatal error path of a prompt-submitting invocation —
missing credential, missing prompt argument, marshal or request
construction failure, transport failure, non-success status, or a stream
read error — the run never saves: the history file is untouched and no
assistant message is persisted. -/
theorem spec_C9 (fl : Flags) (apiKey roleEnv genID : String) (now : Int)
    (net : NetEnv) (u : String → Option StreamResponse)
    (pd : String → Option Int) (st : StoreState)
    (h1 : fl.checkStatus = false) (h2 : fl.listModels = false)
    (h3 : fl.rm = "") (h4 : fl.ls = false)
    (hfatal : apiKey = "" ∨ fl.args = [] ∨ net.marshalFails = true
      ∨ net.newRequestFails = true ∨ net.outcome = .transportError
      ∨ (∃ s ok b ln re, net.outcome = .httpResponse s ok b ln re ∧ s ≠ 200)
      ∨ (∃ s ok b ln, net.outcome = .httpResponse s ok b ln true)) :
    (runMain fl apiKey roleEnv genID now net u pd st).disk = none
    ∧ Event.save ∉ (runMain fl apiKey roleEnv genID now net u pd st).events
    ∧ ∀ a, Event.appendAssistant a
        ∉ (runMain fl apiKey roleEnv genID now net u pd st).events := by
  by_cases hkey : apiKey = ""
  · refine ⟨?_, ?_, ?_⟩ <;> simp [runMain, h1, h2, h3, h4, hkey]
  · cases hargs : fl.args with
    | nil =>
        refine ⟨?_, ?_, ?_⟩ <;> simp [runMain, h1, h2, h3, h4, hkey, hargs]
    | cons prompt rest =>
        cases hm : net.marshalFails with
        | true =>
            refine ⟨?_, ?_, ?_⟩ <;>
              simp [runMain, h1, h2, h3, h4, hkey, hargs, hm]
        | false =>
            cases hnr : net.newRequestFails with
            | true =>
                refine ⟨?_, ?_, ?_⟩ <;>
                  simp [runMain, h1, h2, h3, h4, hkey, hargs, hm, hnr]
            | false =>
                cases hout : net.outcome with
                | transportError =>
                    refine ⟨?_, ?_, ?_⟩ <;>
                      simp [runMain, h1, h2, h3, h4, hkey, hargs, hm, hnr,
                        hout]
                | httpResponse status bodyReadOk body lines readErr =>
                    by_cases hs : status = 200
                    · cases hre : readErr with
                      | true =>
                          refine ⟨?_, ?_, ?_⟩ <;>
                            simp [runMain, h1, h2, h3, h4, hkey, hargs, hm,
                              hnr, hout, hs, hre]
                      | false =>
                          exfalso
                          rcases hfatal with h | h | h | h | h | h | h
                          · exact hkey h
                          · rw [hargs] at h; exact List.noConfusion h
                          · rw [hm] at h; exact Bool.noConfusion h
                          · rw [hnr] at h; exact Bool.noConfusion h
                          · rw [hout] at h; exact NetOutcome.noConfusion h
                          · obtain ⟨s, ok, b, ln, re, he, hne⟩ := h
                            rw [hout] at he
                            injection he with e1 e2 e3 e4 e5
                            exact hne (e1.symm.trans (by rw [hs]))
                          · obtain ⟨s, ok, b, ln, he⟩ := h
                            rw [hout] at he
                            injection he with e1 e2 e3 e4 e5
                            rw [hre] at e5
                            exact Bool.noConfusion e5
                    · cases hok : bodyReadOk with
                      | true =>
                          refine ⟨?_, ?_, ?_⟩ <;>
                            simp [runMain, h1, h2, h3, h4, hkey, hargs, hm,
                              hnr, hout, hs, hok]
                      | false =>
                          refine ⟨?_, ?_, ?_⟩ <;>
                            simp [runMain, h1, h2, h3, h4, hkey, hargs, hm,
                              hnr, hout, hs, hok]

/-- Witness for C9 at a concrete invocation with the credential missing. -/
theorem spec_C9_witness :
    wFl.checkStatus = false ∧ wFl.listModels = false ∧ wFl.rm = ""
    ∧ wFl.ls = false ∧ ("" : String) = ""
    ∧ ((runMain wFl "" "" "g" 0 wNet wU wPd wSt).disk = none
      ∧ Event.save ∉ (runMain wFl "" "" "g" 0 wNet wU wPd wSt).events
      ∧ ∀ a, Event.appendAssistant a
          ∉ (runMain wFl "" "" "g" 0 wNet wU wPd wSt).events) :=
  ⟨rfl, rfl, rfl, rfl, rfl,
   spec_C9 wFl "" "" "g" 0 wNet wU wPd wSt rfl rfl rfl rfl (Or.inl rfl)⟩

/-- Concrete flags for the C8 counterexample: the single positional
argument is the empty string. -/
def wFlEmptyArg : Flags :=
  ⟨"deepseek-chat", "", false, false, false, false, false, "", false, [""]⟩

/-- Counterexample to C8 as stated: with an explicit empty-string prompt
argument the argument-count check passes, the user-turn append IS invoked
with the empty string, the network call is made, and a user message with
empty content ends up in the stored conversation. -/
theorem spec_C8_counterexample :
    (runMain wFlEmptyArg "k" "" "g" 0 wNet wU wPd wSt).events
      = [.appendUser "", .netCall, .appendAssistant "", .save]
    ∧ ∃ c, lookupChat
        (runMain wFlEmptyArg "k" "" "g" 0 wNet wU wPd wSt).store.chatHistory
        "g" = some c
      ∧ (⟨"user", ""⟩ : Message) ∈ c.messages := by
  constructor
  · rfl
  · refine ⟨⟨0, [⟨"system", "You are a helpful assistant. Be concise."⟩,
      ⟨"user", ""⟩, ⟨"assistant", ""⟩]⟩, rfl, ?_⟩
    simp

/-- C8 (amended): an invocation with no prompt argument at all is a fatal
configuration error — reported, no network call, no append, file
untouched; an explicitly supplied empty-string argument, however, is not
rejected (see the counterexample). -/
theorem spec_C8 (fl : Flags) (apiKey roleEnv genID : String) (now : Int)
    (net : NetEnv) (u : String → Option StreamResponse)
    (pd : String → Option Int) (st : StoreState)
    (h1 : fl.checkStatus = false) (h2 : fl.listModels = false)
    (h3 : fl.rm = "") (h4 : fl.ls = false) (hargs : fl.args = []) :
    (runMain fl apiKey roleEnv genID now net u pd st).events = []
    ∧ (runMain fl apiKey roleEnv genID now net u pd st).disk = none
    ∧ (apiKey ≠ "" →
        "Error: You must provide a prompt as an argument."
          ∈ (runMain fl apiKey roleEnv genID now net u pd st).printed) := by
  by_cases hkey : apiKey = ""
  · refine ⟨?_, ?_, ?_⟩ <;> simp [runMain, h1, h2, h3, h4, hkey]
  · refine ⟨?_, ?_, ?_⟩ <;> simp [runMain, h1, h2, h3, h4, hkey, hargs]

/-- Concrete flags for the C8 witness: no positional arguments. -/
def wFlNoArg : Flags :=
  ⟨"deepseek-chat", "", false, false, false, false, false, "", false, []⟩

/-- Witness for the amended C8 at a concrete invocation with no prompt
argument. -/
theorem spec_C8_witness :
    wFlNoArg.checkStatus = false ∧ wFlNoArg.listModels = false
    ∧ wFlNoArg.rm = "" ∧ wFlNoArg.ls = false ∧ wFlNoArg.args = []
    ∧ ((runMain wFlNoArg "k" "" "g" 0 wNet wU wPd wSt).events = []
      ∧ (runMain wFlNoArg "k" "" "g" 0 wNet wU wPd wSt).disk = none
      ∧ (("k" : String) ≠ "" →
          "Error: You must provide a prompt as an argument."
            ∈ (runMain wFlNoArg "k" "" "g" 0 wNet wU wPd wSt).printed)) :=
  ⟨rfl, rfl, rfl, rfl, rfl,
   spec_C8 wFlNoArg "k" "" "g" 0 wNet wU wPd wSt rfl rfl rfl rfl rfl⟩

end Deepseek
